import Mathlib

/-!
Verification of the medication-adherence PDC core of this repository.

The repository's algorithmic content lives in SQL query templates built by
`airms_helper_fixed.py` and `airms_helper_v3.py`.  This file gives a shallow
embedding of those queries: calendar dates become `Int` day numbers
(`ADD_DAYS d n = d + n`, `DAYS_BETWEEN a b = b - a`), NULL-able columns become
`Option`, one `(person_id, drug_concept_id)` group of coverage intervals
becomes a `List (Int × Int)` of inclusive `(start_date, end_date)` pairs, and
the window-function passes become recursive scans over the list sorted by
`(start_date, end_date)` — the ORDER BY used by every window in the source.
-/

/-- Day number of a Gregorian calendar date (days since 1970-01-01), so that
`ADD_DAYS`/`DAYS_BETWEEN` on SQL dates become `Int` addition/subtraction.
Standard civil-calendar conversion; only used to name the concrete dates
appearing in boundary examples. -/
def daysFromCivil (y m d : Int) : Int :=
  let y2 := if m ≤ 2 then y - 1 else y
  let era := (if 0 ≤ y2 then y2 else y2 - 399) / 400
  let yoe := y2 - era * 400
  let mp := (m + 9) % 12
  let doy := (153 * mp + 2) / 5 + d - 1
  let doe := yoe * 365 + yoe / 4 - yoe / 100 + doy
  era * 146097 + doe - 719468

/-- One row of the external `DRUG_EXPOSURE` table, as read by the queries:
`drug_exposure_start_date`, `drug_exposure_end_date`, `days_supply` and
`refills` columns, the latter three NULL-able.  `start_date` is `Option`
because the table may hold NULL start dates (error-handling claim). -/
structure RawExposure where
  person_id : Int
  drug_concept_id : Int
  start_date : Option Int
  end_date : Option Int
  days_supply : Option Int
  refills : Option Int
deriving DecidableEq, Repr

/-- SQL predicate `col IS NOT NULL AND col > 0`. -/
def posOpt : Option Int → Bool
  | some n => decide (0 < n)
  | none => false

/-- Sorted list of `Int`s (ascending); models the engine's ordering of the
qualifying `days_supply` values behind `MEDIAN`. -/
def sortInts (l : List Int) : List Int :=
  l.insertionSort (· ≤ ·)

/-- The `days_supply` values that qualify for the per-drug median in the
`drug_median_supply` CTE of `airms_helper_v3`:
`WHERE days_supply IS NOT NULL AND days_supply > 0` restricted to one
`drug_concept_id`. -/
def positiveDaysSupply (tbl : List RawExposure) (drug : Int) : List Int :=
  tbl.filterMap fun r =>
    if r.drug_concept_id = drug then
      match r.days_supply with
      | some d => if 0 < d then some d else none
      | none => none
    else none

/-- `MEDIAN(days_supply)` per drug from the `drug_median_supply` CTE: the
middle element of the sorted qualifying values for an odd count; for an even
count the engine averages the two middle values, modelled with integer
averaging.  `none` when no qualifying row exists (the SQL `GROUP BY` then
produces no row for the drug and the LEFT JOIN yields NULL). -/
def medianDaysSupply (tbl : List RawExposure) (drug : Int) : Option Int :=
  let v := sortInts (positiveDaysSupply tbl drug)
  if v.isEmpty then none
  else some (if v.length % 2 = 1 then v.getD (v.length / 2) 0
             else (v.getD (v.length / 2 - 1) 0 + v.getD (v.length / 2) 0) / 2)

/-- End-date fallback chain of `airms_helper_fixed.calculate_pdc_server_side`
(`drug_exposures_cleaned` CTE): explicit end date, else `days_supply`, else
`refills * 30`, else a fixed 30-day default — no median step. -/
def endDateCalcFixed (r : RawExposure) (s : Int) : Int :=
  match r.end_date with
  | some e => e
  | none =>
    if posOpt r.days_supply then s + (r.days_supply.getD 0 - 1)
    else if posOpt r.refills then s + (r.refills.getD 0 * 30 - 1)
    else s + 29

/-- End-date fallback chain of `airms_helper_v3.calculate_pdc_server_side`
(`drug_exposures_with_dates` CTE): explicit end date, else `days_supply`,
else `refills * 30`, else the drug-specific median, else the 30-day
default. -/
def endDateCalc (med : Option Int) (r : RawExposure) (s : Int) : Int :=
  match r.end_date with
  | some e => e
  | none =>
    if posOpt r.days_supply then s + (r.days_supply.getD 0 - 1)
    else if posOpt r.refills then s + (r.refills.getD 0 * 30 - 1)
    else
      match med with
      | some m => s + (m - 1)
      | none => s + 29

/-- The `WHERE de.drug_exposure_start_date >= lo AND ... <= hi` filter of all
the queries, under SQL three-valued logic: a NULL `start_date` satisfies
neither comparison, so the row is excluded. -/
def inDateRange (lo hi : Int) (r : RawExposure) : Bool :=
  match r.start_date with
  | some s => decide (lo ≤ s) && decide (s ≤ hi)
  | none => false

/-- A normalized coverage interval produced for one fill record. -/
structure NormalizedInterval where
  person_id : Int
  drug_id : Int
  start_date : Int
  end_date : Int
deriving DecidableEq, Repr

/-- The `drug_exposures_cleaned` CTE of `airms_helper_fixed`: the date-range
filter followed by the end-date calculation, one output row per selected
input row. -/
def cleanedExposuresFixed (tbl : List RawExposure) (lo hi : Int) :
    List NormalizedInterval :=
  (tbl.filter (inDateRange lo hi)).map fun r =>
    let s := r.start_date.getD 0
    ⟨r.person_id, r.drug_concept_id, s, endDateCalcFixed r s⟩

/-- The `drug_exposures_with_dates` CTE of `airms_helper_v3`: the date-range
filter followed by the median-aware end-date calculation. -/
def cleanedExposuresV3 (tbl : List RawExposure) (lo hi : Int) :
    List NormalizedInterval :=
  (tbl.filter (inDateRange lo hi)).map fun r =>
    let s := r.start_date.getD 0
    ⟨r.person_id, r.drug_concept_id, s,
      endDateCalc (medianDaysSupply tbl r.drug_concept_id) r s⟩

/-- The `ORDER BY start_date, end_date` used by every window function in both
variants, on one group's `(start_date, end_date)` pairs. -/
def pairLe (a b : Int × Int) : Prop :=
  a.1 < b.1 ∨ (a.1 = b.1 ∧ a.2 ≤ b.2)

instance : DecidableRel pairLe := fun a b => by
  unfold pairLe; infer_instance

/-- A group's intervals in the order the window functions consume them. -/
def sortPairs (l : List (Int × Int)) : List (Int × Int) :=
  l.insertionSort pairLe

/-- A maximal run of overlapping/adjacent intervals of one group, as built by
the `merged_periods` CTE of `airms_helper_fixed`: `MIN(start_date)`,
`MAX(end_date)` and `COUNT(*)` over one `coverage_group`. -/
structure MergedPeriod where
  period_start : Int
  period_end : Int
  num_fills : Nat
deriving DecidableEq, Repr

/-- `MIN(start_date)` over a group's rows. -/
def minStarts : List (Int × Int) → Int
  | [] => 0
  | x :: xs => xs.foldl (fun a r => min a r.1) x.1

/-- `MAX(end_date)` over a group's rows. -/
def maxEnds : List (Int × Int) → Int
  | [] => 0
  | x :: xs => xs.foldl (fun a r => max a r.2) x.2

/-- Walks the sorted rows building the `coverage_group` runs of the
`coverage_groups` CTE of `airms_helper_fixed`: a row opens a new group
exactly when its start exceeds `MAX(end_date) OVER (... ROWS BETWEEN
UNBOUNDED PRECEDING AND 1 PRECEDING)` by more than one day.  `pm` threads
that running maximum over all already-consumed rows (it never resets at a
group boundary, exactly as the SQL window does); `cur` holds the current
run, most recent row first. -/
def groupsAux (pm : Int) (cur : List (Int × Int)) :
    List (Int × Int) → List (List (Int × Int))
  | [] => [cur.reverse]
  | (s, e) :: rest =>
      if s ≤ pm + 1 then groupsAux (max pm e) ((s, e) :: cur) rest
      else cur.reverse :: groupsAux (max pm e) [(s, e)] rest

/-- The `coverage_group` partitioning of one group's sorted rows.  The first
row always opens the first run, whatever its flag (the `COALESCE` to
1900-01-01 in the source only shifts the numeric group ids, never the run
structure), so the sentinel date is not needed here. -/
def coverageGroups : List (Int × Int) → List (List (Int × Int))
  | [] => []
  | (s, e) :: rest => groupsAux e [(s, e)] rest

/-- One row of the `merged_periods` CTE for a run of rows. -/
def mkPeriod (g : List (Int × Int)) : MergedPeriod :=
  ⟨minStarts g, maxEnds g, g.length⟩

/-- The `merged_periods` CTE of `airms_helper_fixed` on one group's sorted
rows. -/
def mergedPeriods (l : List (Int × Int)) : List MergedPeriod :=
  (coverageGroups l).map mkPeriod

/-- The merge pass as the specification describes it: a running current
period `[cs, ce]`, extended to `max ce e` when the next interval starts at
or before `ce + 1`, and closed otherwise. -/
def mergeWalkAux (cs ce : Int) (n : Nat) : List (Int × Int) → List MergedPeriod
  | [] => [⟨cs, ce, n⟩]
  | (s, e) :: rest =>
      if s ≤ ce + 1 then mergeWalkAux cs (max ce e) (n + 1) rest
      else ⟨cs, ce, n⟩ :: mergeWalkAux s e 1 rest

/-- Specification-shaped merge: sort, then walk with a running current
period.  Compared against `mergedPeriods` (the translation of the SQL
window-function grouping). -/
def mergeWalk : List (Int × Int) → List MergedPeriod
  | [] => []
  | (s, e) :: rest => mergeWalkAux s e 1 rest

/-- `gap_days` per merged period from the `gaps` CTE of
`airms_helper_fixed`: `LEAD(period_start) - period_end - 1` ordered by
`period_start` (the list is in that order), `0` for the last period. -/
def gapList : List MergedPeriod → List Int
  | [] => []
  | [_] => [0]
  | p :: q :: rest => (q.period_start - p.period_end - 1) :: gapList (q :: rest)

/-- `SUM(days_covered)` over the merged periods, with
`days_covered = DAYS_BETWEEN(period_start, period_end) + 1`. -/
def sumDays (ps : List MergedPeriod) : Int :=
  (ps.map fun p => p.period_end - p.period_start + 1).sum

/-- Sum of the per-period `gap_days`. -/
def sumGaps (ps : List MergedPeriod) : Int :=
  (gapList ps).sum

/-- `MIN` aggregate over an `Int` column (list of values). -/
def foldMin : List Int → Int
  | [] => 0
  | x :: xs => xs.foldl min x

/-- `MAX` aggregate over an `Int` column (list of values). -/
def foldMax : List Int → Int
  | [] => 0
  | x :: xs => xs.foldl max x

/-- `ROUND(q, 4)` of the SQL decimal division, on exact rationals: round half
up at the fourth decimal place (all values rounded here are nonnegative, so
half-up agrees with the engine's round-half-away-from-zero). -/
def round4 (q : ℚ) : ℚ :=
  (⌊q * 10000 + 1/2⌋ : ℤ) / 10000

/-- The guarded PDC formula shared by both variants:
`CASE WHEN duration > 0 THEN ROUND(covered / duration, 4) ELSE 0 END`. -/
def pdcValue (covered duration : Int) : ℚ :=
  if 0 < duration then round4 ((covered : ℚ) / (duration : ℚ)) else 0

/-- The clamp applied in the final SELECT of `airms_helper_v3`:
`CASE WHEN pdc > 1.0 THEN 1.0 WHEN pdc < 0.0 THEN 0.0 ELSE pdc END`. -/
def clamp01 (q : ℚ) : ℚ :=
  if 1 < q then 1 else if q < 0 then 0 else q

/-- One output row of the `patient_drug_pdc` CTE of `airms_helper_fixed` for
one `(person_id, drug_concept_id)` group. -/
structure FixedSummary where
  total_days_covered : Int
  total_fills : Nat
  num_periods : Nat
  num_gaps : Nat
  total_gap_days : Int
  max_gap_days : Int
  first_exposure_date : Int
  last_exposure_date : Int
  treatment_duration : Int
  pdc : ℚ
deriving DecidableEq, Repr

/-- The `patient_drug_pdc` aggregation of `airms_helper_fixed` over one
group's merged periods. -/
def fixedSummaryOfPeriods (ps : List MergedPeriod) : FixedSummary :=
  let gs := gapList ps
  let firstd := foldMin (ps.map fun p => p.period_start)
  let lastd := foldMax (ps.map fun p => p.period_end)
  { total_days_covered := sumDays ps
    total_fills := (ps.map fun p => p.num_fills).sum
    num_periods := ps.length
    num_gaps := (gs.filter fun g => 0 < g).length
    total_gap_days := gs.sum
    max_gap_days := foldMax gs
    first_exposure_date := firstd
    last_exposure_date := lastd
    treatment_duration := lastd - firstd + 1
    pdc := pdcValue (sumDays ps) (lastd - firstd + 1) }

/-- Per-group pipeline of `airms_helper_fixed.calculate_pdc_server_side`:
sort the group's intervals, build coverage groups, merge, aggregate.  `none`
for an empty group (SQL aggregation over zero rows yields no row). -/
def fixedGroupSummary (l : List (Int × Int)) : Option FixedSummary :=
  match mergedPeriods (sortPairs l) with
  | [] => none
  | p :: ps => some (fixedSummaryOfPeriods (p :: ps))

/-- Per-row `(gap_days, adjusted_days_covered)` of the `exposure_with_gaps`
CTE of `airms_helper_v3`, threading `LAG(end_date)` (the previous row's end
date in `(start_date, end_date)` order — not a running maximum) through the
sorted rows. -/
def v3RowStats (prev : Option Int) : List (Int × Int) → List (Int × Int)
  | [] => []
  | (s, e) :: rest =>
      let gap :=
        match prev with
        | some p => if p < s then (s - p) - 1 else 0
        | none => 0
      let adj :=
        match prev with
        | some p =>
            if s ≤ p then max 0 ((e - s + 1) - (p - s) - 1)
            else (e - s) + 1
        | none => (e - s) + 1
      (gap, adj) :: v3RowStats (some e) rest

/-- One output row of the `patient_drug_pdc` CTE of `airms_helper_v3` for one
group, with `pdc` as the final SELECT reports it (clamped to `[0, 1]`). -/
structure V3Summary where
  total_days_covered : Int
  total_fills : Nat
  num_gaps : Nat
  total_gap_days : Int
  max_gap_days : Int
  first_exposure_date : Int
  last_exposure_date : Int
  treatment_duration : Int
  pdc : ℚ
deriving DecidableEq, Repr

/-- The `patient_drug_summary` / `patient_drug_pdc` aggregation of
`airms_helper_v3` over one group's sorted rows. -/
def v3SummaryOfRows (rows : List (Int × Int)) : V3Summary :=
  let stats := v3RowStats none rows
  let gaps := stats.map fun t => t.1
  let total := (stats.map fun t => t.2).sum
  let firstd := foldMin (rows.map fun r => r.1)
  let lastd := foldMax (rows.map fun r => r.2)
  let dur := lastd - firstd + 1
  { total_days_covered := total
    total_fills := rows.length
    num_gaps := (gaps.filter fun g => 0 < g).length
    total_gap_days := gaps.sum
    max_gap_days := foldMax gaps
    first_exposure_date := firstd
    last_exposure_date := lastd
    treatment_duration := dur
    pdc := clamp01 (pdcValue total dur) }

/-- Per-group pipeline of `airms_helper_v3.calculate_pdc_server_side`. -/
def v3GroupSummary (l : List (Int × Int)) : Option V3Summary :=
  match sortPairs l with
  | [] => none
  | r :: rows => some (v3SummaryOfRows (r :: rows))

/-- One row of the external `CONCEPT` table as the final SELECTs join it. -/
structure ConceptRow where
  concept_id : Int
  domain_id : String
  concept_name : Option String
deriving DecidableEq, Repr

/-- Whether the `CONCEPT` table holds a row satisfying the v3 final join and
filter: `concept_id` match, `domain_id = 'Drug'`, non-NULL `concept_name`. -/
def hasDrugConcept (concepts : List ConceptRow) (drug : Int) : Bool :=
  concepts.any fun c =>
    c.concept_id == drug && c.domain_id == "Drug" && c.concept_name.isSome

/-- Whether the final SELECT of `airms_helper_v3` emits a group: the
`treatment_duration >= min_treatment_days` filter of its `patient_drug_pdc`
CTE plus the `c.concept_name IS NOT NULL` filter after the domain-restricted
concept join. -/
def v3OutputKeeps (minDays : Int) (concepts : List ConceptRow) (drug : Int)
    (duration : Int) : Bool :=
  decide (minDays ≤ duration) && hasDrugConcept concepts drug

/-- Whether the final SELECT of `airms_helper_fixed` emits a group: only the
`treatment_duration >= min_treatment_days` filter. -/
def fixedOutputKeeps (minDays : Int) (duration : Int) : Bool :=
  decide (minDays ≤ duration)

/-- The `drug_name` the fixed variant reports: LEFT JOIN on `concept_id`
alone (no domain restriction), NULL when nothing matches. -/
def fixedDrugName (concepts : List ConceptRow) (drug : Int) : Option String :=
  (concepts.find? fun c => c.concept_id == drug).bind fun c => c.concept_name

/-- Gap severity CASE shared by both variants' `get_detailed_gaps`. -/
def gapSeverity (g : Int) : String :=
  if 90 ≤ g then "Critical Gap (90+ days)"
  else if 30 ≤ g then "Major Gap (30-89 days)"
  else if 14 ≤ g then "Moderate Gap (14-29 days)"
  else if 7 ≤ g then "Minor Gap (7-13 days)"
  else "Minimal Gap (<7 days)"

/-- One reported row of `get_detailed_gaps`. -/
structure GapDetail where
  fill_sequence : Nat
  fill_before_gap_end : Int
  gap_start : Int
  gap_end : Int
  gap_days : Int
  severity : String
deriving DecidableEq, Repr

/-- The consecutive-fill scan of `get_detailed_gaps` (v3 form): for each fill
with a successor in `ORDER BY start_date`, `(fill_sequence, end_date,
LEAD(start_date), gap_days)` with `gap_days = next_start - end - 1` when the
next fill starts after this one ends, else `0`.  The last fill of a group has
a NULL `LEAD` (gap 0 in v3, NULL in fixed) and is excluded by the report
filter whenever `min_gap_days ≥ 1`, so it is not materialised here. -/
def gapRowsAux (seq : Nat) : List (Int × Int) → List (Nat × Int × Int × Int)
  | [] => []
  | [_] => []
  | (_, e₁) :: (s₂, e₂) :: rest =>
      (seq, e₁, s₂, if e₁ < s₂ then s₂ - e₁ - 1 else 0) ::
        gapRowsAux (seq + 1) ((s₂, e₂) :: rest)

/-- `get_detailed_gaps` on one group's fills sorted by start date: keep rows
with `gap_days >= min_gap_days`, decorating each with
`gap_start_date = end + 1`, `gap_end_date = next_start - 1` and the severity
bucket. -/
def detailedGaps (minGap : Int) (rows : List (Int × Int)) : List GapDetail :=
  (gapRowsAux 1 rows).filterMap fun t =>
    match t with
    | (seq, e, ns, g) =>
        if minGap ≤ g then
          some ⟨seq, e, e + 1, ns - 1, g, gapSeverity g⟩
        else none

/-- Adherence-status CASE shared by both variants' final SELECT, with
threshold `t` (default 0.80). -/
def adherenceStatus (t : ℚ) (pdc : ℚ) : String :=
  if t ≤ pdc then "Adherent"
  else if t - 1/10 ≤ pdc then "Moderately Adherent"
  else "Non-Adherent"

/-! ### Ordering facts for the internal sort -/

theorem pairLe_total (a b : Int × Int) : pairLe a b ∨ pairLe b a := by
  unfold pairLe
  rcases lt_trichotomy a.1 b.1 with h | h | h
  · exact Or.inl (Or.inl h)
  · rcases le_total a.2 b.2 with h2 | h2
    · exact Or.inl (Or.inr ⟨h, h2⟩)
    · exact Or.inr (Or.inr ⟨h.symm, h2⟩)
  · exact Or.inr (Or.inl h)

theorem pairLe_trans (a b c : Int × Int) (h1 : pairLe a b) (h2 : pairLe b c) :
    pairLe a c := by
  unfold pairLe at *
  rcases h1 with h1 | ⟨h1, h1'⟩ <;> rcases h2 with h2 | ⟨h2, h2'⟩
  · exact Or.inl (h1.trans h2)
  · exact Or.inl (h2 ▸ h1)
  · exact Or.inl (h1 ▸ h2)
  · exact Or.inr ⟨h1.trans h2, h1'.trans h2'⟩

theorem pairLe_antisymm (a b : Int × Int) (h1 : pairLe a b) (h2 : pairLe b a) :
    a = b := by
  unfold pairLe at *
  rcases h1 with h1 | ⟨h1, h1'⟩ <;> rcases h2 with h2 | ⟨h2, h2'⟩
  · exact absurd h2 (not_lt.mpr h1.le)
  · exact absurd h1 (not_lt.mpr h2.le)
  · exact absurd h2 (not_lt.mpr h1.le)
  · exact Prod.ext h1 (le_antisymm h1' h2')

instance : IsTotal (Int × Int) pairLe := ⟨pairLe_total⟩

instance : IsTrans (Int × Int) pairLe := ⟨pairLe_trans⟩

instance : IsAntisymm (Int × Int) pairLe := ⟨pairLe_antisymm⟩

theorem sortPairs_perm (l : List (Int × Int)) : (sortPairs l).Perm l :=
  List.perm_insertionSort pairLe l

theorem sortPairs_sorted (l : List (Int × Int)) :
    List.Sorted pairLe (sortPairs l) :=
  List.sorted_insertionSort pairLe l

/-- Two presentations of the same multiset of intervals sort identically. -/
theorem sortPairs_congr {l l' : List (Int × Int)} (h : l.Perm l') :
    sortPairs l = sortPairs l' :=
  List.eq_of_perm_of_sorted
    ((sortPairs_perm l).trans (h.trans (sortPairs_perm l').symm))
    (sortPairs_sorted l) (sortPairs_sorted l')

/-- The comparison on starts alone, all the merge passes need. -/
def startLe (a b : Int × Int) : Prop :=
  a.1 ≤ b.1

theorem sortPairs_pairwise_startLe (l : List (Int × Int)) :
    List.Pairwise startLe (sortPairs l) :=
  (sortPairs_sorted l).imp fun h => h.elim le_of_lt fun hh => le_of_eq hh.1

/-! ### Aggregate folds -/

theorem foldl_min_eq (l : List Int) (a : Int) (h : ∀ x ∈ l, a ≤ x) :
    l.foldl min a = a := by
  induction l with
  | nil => rfl
  | cons x xs ih =>
      have hax : a ≤ x := h x (by simp)
      simp only [List.foldl_cons, min_eq_left hax]
      exact ih fun y hy => h y (by simp [hy])

theorem minStarts_append (g : List (Int × Int)) (hg : g ≠ []) (y : Int × Int) :
    minStarts (g ++ [y]) = min (minStarts g) y.1 := by
  match g with
  | x :: xs =>
      simp [minStarts, List.foldl_append]

theorem maxEnds_append (g : List (Int × Int)) (hg : g ≠ []) (y : Int × Int) :
    maxEnds (g ++ [y]) = max (maxEnds g) y.2 := by
  match g with
  | x :: xs =>
      simp [maxEnds, List.foldl_append]

/-! ### The merge walk: shape and invariants -/

/-- The invariants the merge pass establishes on a group's merged periods:
consecutive periods are separated by at least one uncovered day, and every
period is a proper interval. -/
def GoodPeriods (ps : List MergedPeriod) : Prop :=
  List.Chain' (fun p q => p.period_end + 1 < q.period_start) ps ∧
    ∀ p ∈ ps, p.period_start ≤ p.period_end

theorem mergeWalkAux_shape (rows : List (Int × Int)) :
    ∀ cs ce : Int, ∀ n : Nat, ∃ ce2 m ps,
      mergeWalkAux cs ce n rows = ⟨cs, ce2, m⟩ :: ps ∧ ce ≤ ce2 := by
  induction rows with
  | nil => exact fun cs ce n => ⟨ce, n, [], rfl, le_refl ce⟩
  | cons r rest ih =>
      intro cs ce n
      obtain ⟨s, e⟩ := r
      by_cases hle : s ≤ ce + 1
      · obtain ⟨ce2, m, ps, heq, hce⟩ := ih cs (max ce e) (n + 1)
        exact ⟨ce2, m, ps, by simp [mergeWalkAux, hle, heq],
          le_trans (le_max_left ce e) hce⟩
      · exact ⟨ce, n, mergeWalkAux s e 1 rest, by simp [mergeWalkAux, hle],
          le_refl ce⟩

theorem mergeWalkAux_good (rows : List (Int × Int)) :
    ∀ cs ce : Int, ∀ n : Nat, cs ≤ ce → (∀ x ∈ rows, x.1 ≤ x.2) →
      GoodPeriods (mergeWalkAux cs ce n rows) := by
  induction rows with
  | nil =>
      intro cs ce n hce _
      exact ⟨List.chain'_singleton _, by simpa [mergeWalkAux] using hce⟩
  | cons r rest ih =>
      intro cs ce n hce hrows
      obtain ⟨s, e⟩ := r
      have hse : s ≤ e := hrows (s, e) (by simp)
      have hrest : ∀ x ∈ rest, x.1 ≤ x.2 := fun x hx => hrows x (by simp [hx])
      by_cases hle : s ≤ ce + 1
      · have := ih cs (max ce e) (n + 1) (le_trans hce (le_max_left ce e)) hrest
        simpa [mergeWalkAux, hle] using this
      · obtain ⟨good_chain, good_proper⟩ := ih s e 1 hse hrest
        obtain ⟨ce2, m, ps, heq, _⟩ := mergeWalkAux_shape rest s e 1
        refine ⟨?_, ?_⟩
        · simp only [mergeWalkAux, if_neg hle, heq]
          rw [heq] at good_chain
          exact List.chain'_cons.mpr ⟨by simpa using not_le.mp hle, good_chain⟩
        · intro p hp
          simp only [mergeWalkAux, if_neg hle] at hp
          rcases List.mem_cons.mp hp with h | h
          · simp [h, hce]
          · exact good_proper p h

/-! ### The SQL window grouping agrees with the running-period walk -/

theorem groupsAux_eq_walkAux (rows : List (Int × Int)) :
    ∀ (pm0 : Int) (cur : List (Int × Int)) (cs ce : Int) (n : Nat),
      cur ≠ [] →
      minStarts cur.reverse = cs →
      maxEnds cur.reverse = ce →
      cur.length = n →
      List.Pairwise startLe rows →
      (∀ x ∈ rows, cs ≤ x.1) →
      (pm0 ≤ ce ∨ ∀ x ∈ rows, pm0 + 1 < x.1) →
      (groupsAux (max pm0 ce) cur rows).map mkPeriod = mergeWalkAux cs ce n rows := by
  induction rows with
  | nil =>
      intro pm0 cur cs ce n hcur hmin hmax hlen _ _ _
      simp [groupsAux, mergeWalkAux, mkPeriod, hmin, hmax, ← hlen]
  | cons r rest ih =>
      intro pm0 cur cs ce n hcur hmin hmax hlen hpw hfut hdisj
      obtain ⟨s, e⟩ := r
      have hcs : cs ≤ s := hfut (s, e) (by simp)
      have hpw' : List.Pairwise startLe rest := (List.pairwise_cons.mp hpw).2
      have hhead : ∀ x ∈ rest, s ≤ x.1 := fun x hx =>
        (List.pairwise_cons.mp hpw).1 x hx
      have hcurrev : cur.reverse ≠ [] := by
        simpa using hcur
      by_cases hle : s ≤ ce + 1
      · have hsql : s ≤ max pm0 ce + 1 :=
          le_trans hle (by simp)
        have hmin' : minStarts ((s, e) :: cur).reverse = cs := by
          rw [List.reverse_cons, minStarts_append cur.reverse hcurrev, hmin]
          exact min_eq_left hcs
        have hmax' : maxEnds ((s, e) :: cur).reverse = max ce e := by
          rw [List.reverse_cons, maxEnds_append cur.reverse hcurrev, hmax]
        have hdisj' : pm0 ≤ max ce e ∨ ∀ x ∈ rest, pm0 + 1 < x.1 := by
          rcases hdisj with h | h
          · exact Or.inl (le_trans h (le_max_left ce e))
          · exact Or.inr fun x hx => h x (by simp [hx])
        have hrec := ih pm0 ((s, e) :: cur) cs (max ce e) (n + 1)
          (by simp) hmin' hmax' (by simp [← hlen]) hpw'
          (fun x hx => le_trans hcs (hhead x hx)) hdisj'
        rw [← max_assoc] at hrec
        simp only [groupsAux, if_pos hsql, mergeWalkAux, if_pos hle]
        exact hrec
      · have hlt : ce + 1 < s := not_le.mp hle
        have hpm0 : pm0 + 1 < s := by
          rcases hdisj with h | h
          · omega
          · exact h (s, e) (by simp)
        have hsql : ¬ s ≤ max pm0 ce + 1 := by
          rcases max_cases pm0 ce with ⟨hm, _⟩ | ⟨hm, _⟩ <;> omega
        have hrec := ih (max pm0 ce) [(s, e)] s e 1
          (by simp) rfl rfl rfl hpw' hhead
          (Or.inr fun x hx => by
            have := hhead x hx
            rcases max_cases pm0 ce with ⟨hm, _⟩ | ⟨hm, _⟩ <;> omega)
        simp only [groupsAux, if_neg hsql, mergeWalkAux, if_neg hle, List.map_cons]
        refine congrArg₂ (· :: ·) ?_ hrec
        simp [mkPeriod, hmin, hmax, ← hlen]

/-- The translation of the SQL window-function grouping equals the
specification's running-period walk on rows sorted by start date. -/
theorem mergedPeriods_eq_mergeWalk (l : List (Int × Int))
    (h : List.Pairwise startLe l) : mergedPeriods l = mergeWalk l := by
  cases l with
  | nil => rfl
  | cons r rest =>
      obtain ⟨s, e⟩ := r
      have hhead : ∀ x ∈ rest, s ≤ x.1 := fun x hx =>
        (List.pairwise_cons.mp h).1 x hx
      have := groupsAux_eq_walkAux rest e [(s, e)] s e 1
        (by simp) rfl rfl rfl (List.pairwise_cons.mp h).2 hhead (Or.inl (le_refl e))
      rw [max_self] at this
      simpa [mergedPeriods, coverageGroups, mergeWalk] using this

/-! ### Merged-period arithmetic -/

/-- End date of the last period in list order (the list of merged periods is
produced in ascending `period_start` order). -/
def lastEnd : List MergedPeriod → Int
  | [] => 0
  | [p] => p.period_end
  | _ :: q :: rest => lastEnd (q :: rest)

theorem telescope : ∀ (ps : List MergedPeriod) (p : MergedPeriod),
    sumDays (p :: ps) + sumGaps (p :: ps) = lastEnd (p :: ps) - p.period_start + 1
  | [], p => by simp [sumDays, sumGaps, gapList, lastEnd]
  | q :: rest, p => by
      have ih := telescope rest q
      simp only [sumDays, sumGaps, gapList, lastEnd, List.map_cons,
        List.sum_cons] at ih ⊢
      linarith

theorem goodPeriods_tail {p : MergedPeriod} {ps : List MergedPeriod}
    (h : GoodPeriods (p :: ps)) : GoodPeriods ps :=
  ⟨h.1.tail, fun q hq => h.2 q (List.mem_cons_of_mem p hq)⟩

theorem good_start_le : ∀ (ps : List MergedPeriod) (p : MergedPeriod),
    GoodPeriods (p :: ps) → ∀ q ∈ ps, p.period_start ≤ q.period_start
  | [], _, _, q, hq => absurd hq (List.not_mem_nil q)
  | r :: rest, p, h, q, hq => by
      have hc : p.period_end + 1 < r.period_start := (List.chain'_cons.mp h.1).1
      have hpp : p.period_start ≤ p.period_end := h.2 p (by simp)
      have hpr : p.period_start ≤ r.period_start := by omega
      rcases List.mem_cons.mp hq with rfl | hq2
      · exact hpr
      · exact hpr.trans (good_start_le rest r (goodPeriods_tail h) q hq2)

theorem good_end_le_lastEnd : ∀ (ps : List MergedPeriod) (p : MergedPeriod),
    GoodPeriods (p :: ps) → p.period_end ≤ lastEnd (p :: ps)
  | [], _, _ => le_refl _
  | r :: rest, p, h => by
      have hc : p.period_end + 1 < r.period_start := (List.chain'_cons.mp h.1).1
      have hrr : r.period_start ≤ r.period_end := h.2 r (by simp)
      have h1 : p.period_end ≤ r.period_end := by omega
      have ih := good_end_le_lastEnd rest r (goodPeriods_tail h)
      simpa [lastEnd] using h1.trans ih

theorem foldMin_starts (ps : List MergedPeriod) (p : MergedPeriod)
    (h : GoodPeriods (p :: ps)) :
    foldMin ((p :: ps).map fun x => x.period_start) = p.period_start := by
  simp only [List.map_cons, foldMin]
  refine foldl_min_eq _ _ ?_
  intro x hx
  obtain ⟨q, hq, rfl⟩ := List.mem_map.mp hx
  exact good_start_le ps p h q hq

theorem foldMax_ends : ∀ (ps : List MergedPeriod) (p : MergedPeriod),
    GoodPeriods (p :: ps) →
    foldMax ((p :: ps).map fun x => x.period_end) = lastEnd (p :: ps)
  | [], _, _ => rfl
  | r :: rest, p, h => by
      have hc : p.period_end + 1 < r.period_start := (List.chain'_cons.mp h.1).1
      have hrr : r.period_start ≤ r.period_end := h.2 r (by simp)
      have h1 : p.period_end ≤ r.period_end := by omega
      have ih := foldMax_ends rest r (goodPeriods_tail h)
      simp only [List.map_cons, foldMax, List.foldl_cons] at ih ⊢
      rw [max_eq_right h1, ih]
      simp [lastEnd]

theorem gapList_nonneg : ∀ (ps : List MergedPeriod), GoodPeriods ps →
    ∀ g ∈ gapList ps, 0 ≤ g
  | [], _, g, hg => absurd hg (by simp [gapList])
  | [_], _, g, hg => by
      simp [gapList] at hg
      omega
  | p :: q :: rest, h, g, hg => by
      rcases List.mem_cons.mp hg with rfl | hg2
      · have hc : p.period_end + 1 < q.period_start := (List.chain'_cons.mp h.1).1
        omega
      · exact gapList_nonneg (q :: rest) (goodPeriods_tail h) g hg2

theorem sumDays_nonneg (ps : List MergedPeriod)
    (h : ∀ p ∈ ps, p.period_start ≤ p.period_end) : 0 ≤ sumDays ps := by
  refine List.sum_nonneg ?_
  intro x hx
  obtain ⟨p, hp, rfl⟩ := List.mem_map.mp hx
  have := h p hp
  omega

/-! ### Master facts about the fixed variant's per-group summary -/

theorem fixed_master (l : List (Int × Int)) (hne : l ≠ [])
    (hp : ∀ x ∈ l, x.1 ≤ x.2) :
    ∃ S, fixedGroupSummary l = some S ∧
      S.total_gap_days + S.total_days_covered = S.treatment_duration ∧
      0 ≤ S.total_gap_days ∧
      0 ≤ S.total_days_covered ∧
      1 ≤ S.treatment_duration ∧
      S.total_days_covered ≤ S.treatment_duration ∧
      S.pdc = pdcValue S.total_days_covered S.treatment_duration := by
  have hnil : sortPairs l ≠ [] := by
    intro h0
    have hlen := (sortPairs_perm l).length_eq
    rw [h0] at hlen
    exact hne (List.length_eq_zero.mp hlen.symm)
  obtain ⟨r, rest, hrows⟩ := List.exists_cons_of_ne_nil hnil
  have hsorted := sortPairs_pairwise_startLe l
  have hmem : ∀ x ∈ sortPairs l, x.1 ≤ x.2 := fun x hx =>
    hp x ((sortPairs_perm l).subset hx)
  have heqw : mergedPeriods (sortPairs l) = mergeWalk (sortPairs l) :=
    mergedPeriods_eq_mergeWalk _ hsorted
  obtain ⟨s, e⟩ := r
  have hmp : mergedPeriods (sortPairs l) = mergeWalkAux s e 1 rest := by
    rw [heqw, hrows]
    rfl
  have hgood : GoodPeriods (mergeWalkAux s e 1 rest) :=
    mergeWalkAux_good rest s e 1
      (hmem (s, e) (by rw [hrows]; simp))
      (fun x hx => hmem x (by rw [hrows]; simp [hx]))
  obtain ⟨ce2, m, ps, hwalk, _⟩ := mergeWalkAux_shape rest s e 1
  rw [hwalk] at hmp hgood
  have hsum : fixedGroupSummary l = some (fixedSummaryOfPeriods (⟨s, ce2, m⟩ :: ps)) := by
    unfold fixedGroupSummary
    rw [hmp]
  set p0 : MergedPeriod := ⟨s, ce2, m⟩ with hp0
  have hps : p0.period_start = s := by rw [hp0]
  have hpe : p0.period_end = ce2 := by rw [hp0]
  have hfmin : foldMin ((p0 :: ps).map fun x => x.period_start) = s :=
    foldMin_starts ps p0 hgood
  have hfmax : foldMax ((p0 :: ps).map fun x => x.period_end) = lastEnd (p0 :: ps) :=
    foldMax_ends ps p0 hgood
  have htel := telescope ps p0
  have hlastEnd : s ≤ lastEnd (p0 :: ps) := by
    have h1 : p0.period_start ≤ p0.period_end := hgood.2 p0 (by simp)
    have h2 := good_end_le_lastEnd ps p0 hgood
    simp only [hp0] at h1
    omega
  have hgaps : 0 ≤ sumGaps (p0 :: ps) :=
    List.sum_nonneg (gapList_nonneg (p0 :: ps) hgood)
  have hdays : 0 ≤ sumDays (p0 :: ps) :=
    sumDays_nonneg (p0 :: ps) hgood.2
  refine ⟨fixedSummaryOfPeriods (p0 :: ps), hsum, ?_, ?_, ?_, ?_, ?_, ?_⟩
  · show sumGaps (p0 :: ps) + sumDays (p0 :: ps) =
      foldMax ((p0 :: ps).map fun x => x.period_end) -
        foldMin ((p0 :: ps).map fun x => x.period_start) + 1
    rw [hfmin, hfmax]
    omega
  · exact hgaps
  · exact hdays
  · show 1 ≤ foldMax ((p0 :: ps).map fun x => x.period_end) -
      foldMin ((p0 :: ps).map fun x => x.period_start) + 1
    rw [hfmin, hfmax]
    omega
  · show sumDays (p0 :: ps) ≤
      foldMax ((p0 :: ps).map fun x => x.period_end) -
        foldMin ((p0 :: ps).map fun x => x.period_start) + 1
    rw [hfmin, hfmax]
    omega
  · rfl

/-! ### Rounding and clamping facts -/

theorem round4_nonneg (q : ℚ) (h : 0 ≤ q) : 0 ≤ round4 q := by
  unfold round4
  have h1 : (0 : ℤ) ≤ ⌊q * 10000 + 1/2⌋ := by
    refine Int.floor_nonneg.mpr ?_
    have : 0 ≤ q * 10000 := by positivity
    linarith
  have h2 : (0 : ℚ) ≤ (⌊q * 10000 + 1/2⌋ : ℚ) := by exact_mod_cast h1
  positivity

theorem round4_le_one (q : ℚ) (h : q ≤ 1) : round4 q ≤ 1 := by
  unfold round4
  have h1 : ⌊q * 10000 + 1/2⌋ ≤ 10000 := by
    have h2 : ⌊q * 10000 + 1/2⌋ < (10001 : ℤ) := by
      rw [Int.floor_lt]
      push_cast
      nlinarith
    omega
  rw [div_le_one (by norm_num)]
  exact_mod_cast h1

theorem clamp01_eq_self (q : ℚ) (h0 : 0 ≤ q) (h1 : q ≤ 1) : clamp01 q = q := by
  unfold clamp01
  rw [if_neg (not_lt.mpr h1), if_neg (not_lt.mpr h0)]

theorem pdcValue_zero_duration (c : Int) : pdcValue c 0 = 0 := by
  simp [pdcValue]

theorem pdcValue_eq_clamped (c d : Int) (h0 : 0 ≤ c) (hd : 0 < d)
    (hcd : c ≤ d) : pdcValue c d = clamp01 (round4 ((c : ℚ) / (d : ℚ))) := by
  unfold pdcValue
  rw [if_pos hd]
  have hq0 : 0 ≤ (c : ℚ) / (d : ℚ) :=
    div_nonneg (by exact_mod_cast h0) (by exact_mod_cast hd.le)
  have hq1 : (c : ℚ) / (d : ℚ) ≤ 1 := by
    rw [div_le_one (by exact_mod_cast hd)]
    exact_mod_cast hcd
  rw [clamp01_eq_self _ (round4_nonneg _ hq0) (round4_le_one _ hq1)]

/-! ### The v3 summary's reported PDC -/

theorem v3GroupSummary_pdc (l : List (Int × Int)) (S : V3Summary)
    (h : v3GroupSummary l = some S) :
    S.pdc = clamp01 (pdcValue S.total_days_covered S.treatment_duration) := by
  unfold v3GroupSummary at h
  cases hs : sortPairs l with
  | nil => rw [hs] at h; exact absurd h (by simp)
  | cons r rows =>
      rw [hs] at h
      have h2 := Option.some.inj h
      rw [← h2]
      rfl

/-! ### Median facts -/

theorem positiveDaysSupply_one_le (tbl : List RawExposure) (drug x : Int)
    (hx : x ∈ positiveDaysSupply tbl drug) : 1 ≤ x := by
  unfold positiveDaysSupply at hx
  obtain ⟨r, hrmem, heq⟩ := List.mem_filterMap.mp hx
  split at heq
  · split at heq
    · split at heq
      · injection heq with h2
        omega
      · exact absurd heq (by simp)
    · exact absurd heq (by simp)
  · exact absurd heq (by simp)

theorem medianDaysSupply_one_le (tbl : List RawExposure) (drug m : Int)
    (h : medianDaysSupply tbl drug = some m) : 1 ≤ m := by
  unfold medianDaysSupply at h
  by_cases hemp : (sortInts (positiveDaysSupply tbl drug)).isEmpty
  · rw [if_pos hemp] at h
    exact absurd h (by simp)
  · rw [if_neg hemp] at h
    have hvne : sortInts (positiveDaysSupply tbl drug) ≠ [] := by
      simpa [List.isEmpty_iff] using hemp
    have hall : ∀ x ∈ sortInts (positiveDaysSupply tbl drug), 1 ≤ x := by
      intro x hxv
      exact positiveDaysSupply_one_le tbl drug x
        ((List.perm_insertionSort _ _).subset hxv)
    have hlen : 1 ≤ (sortInts (positiveDaysSupply tbl drug)).length := by
      cases hv : sortInts (positiveDaysSupply tbl drug) with
      | nil => exact absurd hv hvne
      | cons a as => simp
    have hmid : ∀ i, i < (sortInts (positiveDaysSupply tbl drug)).length →
        1 ≤ (sortInts (positiveDaysSupply tbl drug)).getD i 0 := by
      intro i hi
      rw [List.getD_eq_getElem _ 0 hi]
      exact hall _ (List.getElem_mem hi)
    injection h with h2
    by_cases hpar : (sortInts (positiveDaysSupply tbl drug)).length % 2 = 1
    · rw [if_pos hpar] at h2
      rw [← h2]
      exact hmid _ (by omega)
    · rw [if_neg hpar] at h2
      have ha := hmid ((sortInts (positiveDaysSupply tbl drug)).length / 2 - 1)
        (by omega)
      have hb := hmid ((sortInts (positiveDaysSupply tbl drug)).length / 2)
        (by omega)
      omega

theorem medianDaysSupply_isSome_iff (tbl : List RawExposure) (drug : Int) :
    (medianDaysSupply tbl drug).isSome = true ↔
      positiveDaysSupply tbl drug ≠ [] := by
  have hlen : (sortInts (positiveDaysSupply tbl drug)).length =
      (positiveDaysSupply tbl drug).length :=
    (List.perm_insertionSort _ _).length_eq
  unfold medianDaysSupply
  by_cases hemp : (sortInts (positiveDaysSupply tbl drug)).isEmpty
  · rw [if_pos hemp]
    have h0 : (positiveDaysSupply tbl drug).length = 0 := by
      rw [← hlen, List.isEmpty_iff.mp hemp]
      rfl
    simp [List.length_eq_zero.mp h0]
  · rw [if_neg hemp]
    simp only [Option.isSome_some, true_iff, ne_eq]
    intro h0
    have hsorted0 : sortInts (positiveDaysSupply tbl drug) = [] := by
      rw [h0]
      rfl
    exact hemp (List.isEmpty_iff.mpr hsorted0)

/-- Lower bound of the v3 end-date chain on records without an explicit end
date: no branch ever produces an end date before the start date, in
particular `days_supply = 0` never yields the empty interval
`[s, s - 1]`. -/
theorem endDateCalc_ge (tbl : List RawExposure) (r : RawExposure) (s : Int)
    (hend : r.end_date = none) :
    s ≤ endDateCalc (medianDaysSupply tbl r.drug_concept_id) r s := by
  simp only [endDateCalc, hend]
  cases hmed : medianDaysSupply tbl r.drug_concept_id with
  | none =>
      rcases hds : r.days_supply with _ | d <;>
        rcases hrf : r.refills with _ | k <;>
          simp only [posOpt, Option.getD_some, Option.getD_none] <;>
            split_ifs <;> simp_all <;> omega
  | some m =>
      have h1 := medianDaysSupply_one_le tbl r.drug_concept_id m hmed
      rcases hds : r.days_supply with _ | d <;>
        rcases hrf : r.refills with _ | k <;>
          simp only [posOpt, Option.getD_some, Option.getD_none] <;>
            split_ifs <;> simp_all <;> omega

/-! ### Concrete groups used in boundary examples and counterexamples -/

instance : DecidableRel startLe := fun a b => by
  unfold startLe; infer_instance

/-- Chained-overlap group: a long first fill, a fill nested inside it, and a
third fill that also lies inside the first fill's span but starts after the
second fill ends. -/
def exChained : List (Int × Int) := [(1, 100), (2, 3), (4, 5)]

/-- The chained-overlap group followed by a genuinely separate later
period. -/
def exVariants : List (Int × Int) := [(1, 100), (2, 3), (4, 5), (200, 210)]

/-- A concept table that does resolve the demo drug id 1. -/
def demoConcepts : List ConceptRow := [⟨1, "Drug", some "Demo Drug"⟩]

/-- The adjacent-interval boundary example of the specification. -/
def exAdjacent : List (Int × Int) :=
  [(daysFromCivil 2020 1 1, daysFromCivil 2020 1 10),
   (daysFromCivil 2020 1 11, daysFromCivil 2020 1 20)]

/-- The gap boundary example of the specification. -/
def exGap : List (Int × Int) :=
  [(daysFromCivil 2020 1 1, daysFromCivil 2020 1 10),
   (daysFromCivil 2020 1 15, daysFromCivil 2020 1 20)]

/-! ### Claims -/

/-- C1 (amended): in the merge-then-measure variant
(`airms_helper_fixed.calculate_pdc_server_side`), for every nonempty group of
proper intervals the sum of the gap days plus `total_days_covered` equals
`treatment_duration`: coverage and gaps exactly partition the treatment
span.  (The claim as stated also covers the v3 variant, which violates it —
see the counterexample.) -/
theorem C1_fixed_partition (l : List (Int × Int)) (hne : l ≠ [])
    (hp : ∀ x ∈ l, x.1 ≤ x.2) :
    ∃ S, fixedGroupSummary l = some S ∧
      S.total_gap_days + S.total_days_covered = S.treatment_duration := by
  obtain ⟨S, h1, h2, _⟩ := fixed_master l hne hp
  exact ⟨S, h1, h2⟩

theorem C1_fixed_partition_witness :
    ∃ S, fixedGroupSummary [(0, 4), (10, 12)] = some S ∧
      S.total_gap_days + S.total_days_covered = S.treatment_duration :=
  C1_fixed_partition [(0, 4), (10, 12)] (by decide) (by decide)

/-- C1 counterexample: in the v3 variant the chained-overlap group reaches
the PDC output (its `treatment_duration` 100 passes the default threshold 30
and its drug id resolves), yet `total_gap_days + total_days_covered = 102`
while `treatment_duration = 100`. -/
theorem C1_v3_partition_cex :
    (v3GroupSummary exChained).map
        (fun S => (S.total_gap_days + S.total_days_covered,
          S.treatment_duration)) = some (102, 100) ∧
    (v3GroupSummary exChained).map
        (fun S => v3OutputKeeps 30 demoConcepts 1 S.treatment_duration) =
      some true := by
  decide

/-- C4 (amended): in the merge-then-measure variant, for every nonempty
group of proper intervals `total_days_covered ≤ treatment_duration`.  (The
claim as stated also covers the v3 variant, which violates it — see the
counterexample.) -/
theorem C4_fixed_bound (l : List (Int × Int)) (hne : l ≠ [])
    (hp : ∀ x ∈ l, x.1 ≤ x.2) :
    ∃ S, fixedGroupSummary l = some S ∧
      S.total_days_covered ≤ S.treatment_duration := by
  obtain ⟨S, h1, _, _, _, _, h6, _⟩ := fixed_master l hne hp
  exact ⟨S, h1, h6⟩

theorem C4_fixed_bound_witness :
    ∃ S, fixedGroupSummary [(0, 9), (20, 29)] = some S ∧
      S.total_days_covered ≤ S.treatment_duration :=
  C4_fixed_bound [(0, 9), (20, 29)] (by decide) (by decide)

/-- C4 counterexample: the v3 variant's LAG-based accounting counts the
days of the third fill of `exChained` again (its `LAG(end_date)` only sees
the short second fill), so `total_days_covered = 102` exceeds
`treatment_duration = 100`. -/
theorem C4_v3_bound_cex :
    (v3GroupSummary exChained).map
        (fun S => decide (S.total_days_covered ≤ S.treatment_duration)) =
      some false ∧
    (v3GroupSummary exChained).map (fun S => S.total_days_covered) =
      some 102 ∧
    (v3GroupSummary exChained).map (fun S => S.treatment_duration) =
      some 100 := by
  decide

/-- Table exercising the median imputation branch: drug 5 has one positive
`days_supply` value, 7, so its median is 7. -/
def tblMedian : List RawExposure :=
  [⟨1, 5, some 100, none, some 0, none⟩,
   ⟨2, 5, some 200, none, some 7, some 2⟩]

/-- C2: the Interval Normalizer of `airms_helper_v3` emits exactly one
coverage interval per in-range record, and its end date follows the
first-satisfied rule of the chain: explicit end date; else positive
`days_supply`; else positive `refills`; else the drug-specific median of the
positive `days_supply` values of the same drug, when one exists; else
`start + 29`.  `days_supply = 0` (or a nonpositive `days_supply`/`refills`)
fails the `> 0` test and falls through, and no branch ever yields an
interval shorter than one day. -/
theorem C2_normalizer_chain (tbl : List RawExposure) (r : RawExposure)
    (s : Int) (hs : r.start_date = some s) :
    (∀ lo hi, (cleanedExposuresV3 tbl lo hi).length =
        (tbl.filter (inDateRange lo hi)).length) ∧
    (∀ ee, r.end_date = some ee →
      endDateCalc (medianDaysSupply tbl r.drug_concept_id) r s = ee) ∧
    (r.end_date = none → ∀ d, r.days_supply = some d → 0 < d →
      endDateCalc (medianDaysSupply tbl r.drug_concept_id) r s = s + (d - 1)) ∧
    (r.end_date = none → posOpt r.days_supply = false → ∀ k,
      r.refills = some k → 0 < k →
      endDateCalc (medianDaysSupply tbl r.drug_concept_id) r s =
        s + (k * 30 - 1)) ∧
    (r.end_date = none → posOpt r.days_supply = false →
      posOpt r.refills = false → ∀ m,
      medianDaysSupply tbl r.drug_concept_id = some m →
      endDateCalc (medianDaysSupply tbl r.drug_concept_id) r s =
        s + (m - 1)) ∧
    (r.end_date = none → posOpt r.days_supply = false →
      posOpt r.refills = false →
      medianDaysSupply tbl r.drug_concept_id = none →
      endDateCalc (medianDaysSupply tbl r.drug_concept_id) r s = s + 29) ∧
    ((medianDaysSupply tbl r.drug_concept_id).isSome = true ↔
      positiveDaysSupply tbl r.drug_concept_id ≠ []) ∧
    (r.days_supply = some 0 → posOpt r.days_supply = false) ∧
    (r.end_date = none →
      s ≤ endDateCalc (medianDaysSupply tbl r.drug_concept_id) r s) := by
  refine ⟨?_, ?_, ?_, ?_, ?_, ?_, ?_, ?_, ?_⟩
  · intro lo hi
    simp [cleanedExposuresV3]
  · intro ee hee
    simp [endDateCalc, hee]
  · intro hend d hd hdpos
    simp [endDateCalc, hend, hd, posOpt, hdpos]
  · intro hend hds k hk hkpos
    simp only [endDateCalc, hend, hds]
    simp [posOpt, hk, hkpos]
  · intro hend hds hrf m hm
    simp only [endDateCalc, hend, hds, hrf]
    simp [hm]
  · intro hend hds hrf hm
    simp only [endDateCalc, hend, hds, hrf]
    simp [hm]
  · exact medianDaysSupply_isSome_iff tbl r.drug_concept_id
  · intro h0
    simp [posOpt, h0]
  · exact endDateCalc_ge tbl r s

theorem C2_normalizer_chain_witness :
    endDateCalc (medianDaysSupply tblMedian 5)
        ⟨1, 5, some 100, none, some 0, none⟩ 100 = 100 + (7 - 1) :=
  (C2_normalizer_chain tblMedian ⟨1, 5, some 100, none, some 0, none⟩ 100
    rfl).2.2.2.2.1 rfl rfl rfl 7 (by decide)

/-- C3: the translation of the SQL window-function merge of
`airms_helper_fixed` (`coverage_groups` + `merged_periods`) equals, on rows
sorted by start date, the running-period walk that extends the current
period to `max ce e` when the next interval starts at or before `ce + 1` and
closes it otherwise; and the adjacent intervals 2020-01-01..2020-01-10 and
2020-01-11..2020-01-20 merge into a single period covering 20 days with no
gap. -/
theorem C3_merge_walk (l : List (Int × Int))
    (h : List.Pairwise startLe l) :
    mergedPeriods l = mergeWalk l ∧
    (fixedGroupSummary exAdjacent).map
        (fun S => (S.total_days_covered, S.num_periods, S.num_gaps,
          S.total_gap_days, S.treatment_duration)) = some (20, 1, 0, 0, 20) := by
  exact ⟨mergedPeriods_eq_mergeWalk l h, by decide⟩

theorem C3_merge_walk_witness :
    mergedPeriods exAdjacent = mergeWalk exAdjacent ∧
    (fixedGroupSummary exAdjacent).map
        (fun S => (S.total_days_covered, S.num_periods, S.num_gaps,
          S.total_gap_days, S.treatment_duration)) = some (20, 1, 0, 0, 20) :=
  C3_merge_walk exAdjacent (by decide)

/-- C5: the two coverage-accounting variants are not equivalent.  On
`exVariants` (a long fill, two fills nested in its span, then a separate
later period) the merge-then-measure variant counts 111 covered days while
the v3 LAG-based overlap subtraction counts 113, and the reported PDCs
differ (0.5286 versus 0.5381). -/
theorem C5_variants_differ :
    (fixedGroupSummary exVariants).map (fun S => S.total_days_covered) =
      some 111 ∧
    (v3GroupSummary exVariants).map (fun S => S.total_days_covered) =
      some 113 ∧
    (fixedGroupSummary exVariants).map (fun S => S.pdc) =
      some (pdcValue 111 210) ∧
    (v3GroupSummary exVariants).map (fun S => S.pdc) =
      some (clamp01 (pdcValue 113 210)) ∧
    pdcValue 111 210 ≠ clamp01 (pdcValue 113 210) := by
  obtain ⟨S, hS, _, _, _, _, _, hpdc⟩ :=
    fixed_master exVariants (by decide) (by decide)
  have hT : S.total_days_covered = 111 := by
    have h2 : (fixedGroupSummary exVariants).map
        (fun S => S.total_days_covered) = some 111 := by decide
    rw [hS] at h2
    exact Option.some.inj h2
  have hD : S.treatment_duration = 210 := by
    have h2 : (fixedGroupSummary exVariants).map
        (fun S => S.treatment_duration) = some 210 := by decide
    rw [hS] at h2
    exact Option.some.inj h2
  have h113 : (v3GroupSummary exVariants).map
      (fun S => S.total_days_covered) = some 113 := by decide
  have h210 : (v3GroupSummary exVariants).map
      (fun S => S.treatment_duration) = some 210 := by decide
  cases hV : v3GroupSummary exVariants with
  | none => exact absurd hV (by decide)
  | some T =>
      rw [hV] at h113 h210
      have hTpdc := v3GroupSummary_pdc exVariants T hV
      have hT2 : T.total_days_covered = 113 := Option.some.inj h113
      have hD2 : T.treatment_duration = 210 := Option.some.inj h210
      refine ⟨by decide, h113, ?_, ?_, ?_⟩
      · rw [hS, Option.map_some']
        exact congrArg some (show S.pdc = pdcValue 111 210 by
          rw [hpdc, hT, hD])
      · rw [Option.map_some']
        exact congrArg some (show T.pdc = clamp01 (pdcValue 113 210) by
          rw [hTpdc, hT2, hD2])
      · norm_num [pdcValue, round4, clamp01, Int.floor_eq_iff]

/-- C6: for every nonempty group of proper intervals, the merge-then-measure
variant reports `pdc = ROUND(total_days_covered / treatment_duration, 4)`
clamped to `[0, 1]` (the round of the ratio already lies in `[0, 1]`, so the
formula agrees with the source's unclamped `ROUND`); the v3 variant reports
the explicitly clamped rounded ratio of its own totals; and both variants'
shared `CASE WHEN duration > 0` guard yields `pdc = 0` for a zero
`treatment_duration` instead of a division error. -/
theorem C6_pdc_formula (l : List (Int × Int)) (hne : l ≠ [])
    (hp : ∀ x ∈ l, x.1 ≤ x.2) :
    (∃ S, fixedGroupSummary l = some S ∧
        S.pdc = clamp01 (round4
          ((S.total_days_covered : ℚ) / (S.treatment_duration : ℚ))) ∧
        0 < S.treatment_duration) ∧
    (∀ S, v3GroupSummary l = some S →
        S.pdc = clamp01 (pdcValue S.total_days_covered S.treatment_duration)) ∧
    (∀ c : Int, pdcValue c 0 = 0) := by
  refine ⟨?_, fun S hS => v3GroupSummary_pdc l S hS,
    fun c => pdcValue_zero_duration c⟩
  obtain ⟨S, hS, _, _, hc, hd1, hcd, hpdc⟩ := fixed_master l hne hp
  refine ⟨S, hS, ?_, by omega⟩
  rw [hpdc, pdcValue_eq_clamped _ _ hc (by omega) hcd]

theorem C6_pdc_formula_witness :
    (∃ S, fixedGroupSummary [(0, 44)] = some S ∧
        S.pdc = clamp01 (round4
          ((S.total_days_covered : ℚ) / (S.treatment_duration : ℚ))) ∧
        0 < S.treatment_duration) ∧
    (∀ S, v3GroupSummary [(0, 44)] = some S →
        S.pdc = clamp01 (pdcValue S.total_days_covered S.treatment_duration)) ∧
    (∀ c : Int, pdcValue c 0 = 0) :=
  C6_pdc_formula [(0, 44)] (by decide) (by decide)

/-- C7: the per-group pipeline of `airms_helper_fixed` depends only on the
multiset of a group's coverage intervals: permuting the presentation order
leaves the merged periods, the gap list and the whole summary row (PDC
included) unchanged, because the rows are sorted by
`(start_date, end_date)` before the merge pass. -/
theorem C7_order_independence (l l2 : List (Int × Int)) (h : l.Perm l2) :
    mergedPeriods (sortPairs l) = mergedPeriods (sortPairs l2) ∧
    gapList (mergedPeriods (sortPairs l)) =
      gapList (mergedPeriods (sortPairs l2)) ∧
    fixedGroupSummary l = fixedGroupSummary l2 := by
  have hs := sortPairs_congr h
  refine ⟨by rw [hs], by rw [hs], ?_⟩
  unfold fixedGroupSummary
  rw [hs]

theorem C7_order_independence_witness :
    mergedPeriods (sortPairs [(5, 6), (0, 3)]) =
      mergedPeriods (sortPairs [(0, 3), (5, 6)]) ∧
    gapList (mergedPeriods (sortPairs [(5, 6), (0, 3)])) =
      gapList (mergedPeriods (sortPairs [(0, 3), (5, 6)])) ∧
    fixedGroupSummary [(5, 6), (0, 3)] = fixedGroupSummary [(0, 3), (5, 6)] :=
  C7_order_independence [(5, 6), (0, 3)] [(0, 3), (5, 6)] (by decide)

/-- A `DRUG_EXPOSURE` row with a NULL `drug_exposure_start_date`. -/
def nullStartRecord : RawExposure :=
  ⟨1, 2, none, some 50, some 10, some 1⟩

/-- C8: a fill record with a NULL `start_date` is silently removed by the
date-range `WHERE` predicate of both variants (NULL satisfies neither
comparison); the queries compute no count of such rejected records
anywhere, contrary to the specification's requirement of a reportable
rejection count. -/
theorem C8_null_start_silently_dropped :
    cleanedExposuresFixed [nullStartRecord] 0 1000 = [] ∧
    cleanedExposuresV3 [nullStartRecord] 0 1000 = [] := by
  decide

/-- C9: every reported gap's severity bucket is a function of `gap_days`
alone with the fixed thresholds 90/30/14/7, and the fills
2020-01-01..2020-01-10 and 2020-01-15..2020-01-20 produce exactly one 4-day
gap from 2020-01-11 to 2020-01-14, bucketed "Minimal Gap" (reported whenever
`min_gap_days ≤ 4`; the default `min_gap_days = 7` filters it out of the
report). -/
theorem C9_gap_severity (g : Int) :
    (90 ≤ g → gapSeverity g = "Critical Gap (90+ days)") ∧
    (30 ≤ g → g ≤ 89 → gapSeverity g = "Major Gap (30-89 days)") ∧
    (14 ≤ g → g ≤ 29 → gapSeverity g = "Moderate Gap (14-29 days)") ∧
    (7 ≤ g → g ≤ 13 → gapSeverity g = "Minor Gap (7-13 days)") ∧
    (g < 7 → gapSeverity g = "Minimal Gap (<7 days)") ∧
    detailedGaps 1 exGap =
      [⟨1, daysFromCivil 2020 1 10, daysFromCivil 2020 1 11,
        daysFromCivil 2020 1 14, 4, "Minimal Gap (<7 days)"⟩] := by
  refine ⟨?_, ?_, ?_, ?_, ?_, by decide⟩
  · intro h1
    unfold gapSeverity
    rw [if_pos h1]
  · intro h1 h2
    unfold gapSeverity
    rw [if_neg (by omega), if_pos h1]
  · intro h1 h2
    unfold gapSeverity
    rw [if_neg (by omega), if_neg (by omega), if_pos h1]
  · intro h1 h2
    unfold gapSeverity
    rw [if_neg (by omega), if_neg (by omega), if_neg (by omega), if_pos h1]
  · intro h1
    unfold gapSeverity
    rw [if_neg (by omega), if_neg (by omega), if_neg (by omega),
      if_neg (by omega)]

theorem C9_gap_severity_witness :
    gapSeverity 95 = "Critical Gap (90+ days)" ∧
    gapSeverity 40 = "Major Gap (30-89 days)" ∧
    gapSeverity 20 = "Moderate Gap (14-29 days)" ∧
    gapSeverity 9 = "Minor Gap (7-13 days)" ∧
    gapSeverity 4 = "Minimal Gap (<7 days)" :=
  ⟨(C9_gap_severity 95).1 (by decide),
   (C9_gap_severity 40).2.1 (by decide) (by decide),
   (C9_gap_severity 20).2.2.1 (by decide) (by decide),
   (C9_gap_severity 9).2.2.2.1 (by decide) (by decide),
   (C9_gap_severity 4).2.2.2.2.1 (by decide)⟩

/-- A concept table whose only row for id 7 is not in the Drug domain. -/
def ingredientConcepts : List ConceptRow := [⟨7, "Ingredient", some "Aspirin"⟩]

/-- C10 counterexample to the claim's "with a null drug name" clause: when a
non-Drug-domain concept row with a name exists for the id, the fixed
variant's unrestricted join reports that name, not NULL (the v3 variant
still omits the group). -/
theorem C10_fixed_name_cex :
    hasDrugConcept ingredientConcepts 7 = false ∧
    fixedDrugName ingredientConcepts 7 = some "Aspirin" := by
  decide

/-- C10 (amended): a group whose drug id has no CONCEPT row with
`domain_id = 'Drug'` and a non-NULL name is omitted from the v3 output even
when `treatment_duration ≥ min_treatment_days`, so the duration threshold is
not the v3 variant's only exclusion; the fixed variant keeps the group,
though not necessarily with a NULL drug name — its join ignores `domain_id`,
so a matching concept row of any domain supplies its name (see the
counterexample); when no concept row matches the id at all, the reported
name is NULL. -/
theorem C10_v3_concept_exclusion (minDays duration : Int)
    (concepts : List ConceptRow) (drug : Int)
    (hdur : minDays ≤ duration)
    (hno : hasDrugConcept concepts drug = false) :
    v3OutputKeeps minDays concepts drug duration = false ∧
    fixedOutputKeeps minDays duration = true ∧
    ((concepts.all fun c => !(c.concept_id == drug)) = true →
      fixedDrugName concepts drug = none) := by
  refine ⟨?_, ?_, ?_⟩
  · unfold v3OutputKeeps
    rw [hno]
    simp
  · unfold fixedOutputKeeps
    simp [hdur]
  · intro hall
    unfold fixedDrugName
    have hfind : concepts.find? (fun c => c.concept_id == drug) = none := by
      rw [List.find?_eq_none]
      intro c hc
      have h2 := List.all_eq_true.mp hall c hc
      simpa using h2
    rw [hfind]
    rfl

theorem C10_v3_concept_exclusion_witness :
    v3OutputKeeps 30 [] 7 100 = false ∧
    fixedOutputKeeps 30 100 = true ∧
    (([] : List ConceptRow).all (fun c => !(c.concept_id == 7)) = true →
      fixedDrugName [] 7 = none) :=
  C10_v3_concept_exclusion 30 100 [] 7 (by decide) (by decide)
